import Mathlib

/-!
# GST Invoice Billing backend — verification of the core computation

Shallow embedding of the two pure core functions of
`src/backend/server.py` (`calculate_invoice_totals`, `number_to_words`)
and of the invoice-numbering step of `create_invoice`.

Python `float` arithmetic is modelled by exact rational arithmetic (`ℚ`);
Python's `round` builtin (round-half-to-even on the value) is modelled by
`roundHalfEven` / `round2`.  Python's `int` is modelled by `ℤ`.
-/

namespace GSTBilling

/-- One line item, mirroring the pydantic model `ProductItem`
(`quantity : int`, the rest `float`; `name` is irrelevant to the
computation and omitted). -/
structure ProductItem where
  quantity : ℤ
  unit_rate : ℚ
  discount_percentage : ℚ
  gst_rate : ℚ
deriving DecidableEq, Repr

/-- The dict returned by `calculate_invoice_totals`.  `final_amount` is the
result of Python's one-argument `round`, an `int`. -/
structure InvoiceTotals where
  total_taxable_value : ℚ
  total_cgst : ℚ
  total_sgst : ℚ
  total_tax : ℚ
  round_off : ℚ
  final_amount : ℤ
deriving DecidableEq, Repr

/-- Python's builtin `round` to zero fractional digits:
round-half-to-even (banker's rounding) on the exact value. -/
def roundHalfEven (q : ℚ) : ℤ :=
  if q - (q.floor : ℚ) < 1/2 then q.floor
  else if 1/2 < q - (q.floor : ℚ) then q.floor + 1
  else if q.floor % 2 = 0 then q.floor else q.floor + 1

/-- Python's `round(x, 2)`: round-half-to-even at the second decimal. -/
def round2 (q : ℚ) : ℚ := (roundHalfEven (q * 100) : ℚ) / 100

/-- The body of the `for product in products:` loop of
`calculate_invoice_totals`, acting on the accumulator
`(total_taxable_value, total_cgst, total_sgst)`. -/
def accumulate (acc : ℚ × ℚ × ℚ) (p : ProductItem) : ℚ × ℚ × ℚ :=
  let discount_amount := (p.quantity * p.unit_rate * p.discount_percentage) / 100
  let taxable_value := p.quantity * p.unit_rate - discount_amount
  let cgst_rate := p.gst_rate / 2
  let sgst_rate := p.gst_rate / 2
  let cgst_amount := (taxable_value * cgst_rate) / 100
  let sgst_amount := (taxable_value * sgst_rate) / 100
  (acc.1 + taxable_value, acc.2.1 + cgst_amount, acc.2.2 + sgst_amount)

/-- The three running totals after the loop of `calculate_invoice_totals`,
starting from `0.0, 0.0, 0.0`. -/
def sumState (products : List ProductItem) : ℚ × ℚ × ℚ :=
  products.foldl accumulate (0, 0, 0)

/-- The unrounded `gross_total = total_taxable_value + total_tax` of
`calculate_invoice_totals`. -/
def gross_total (products : List ProductItem) : ℚ :=
  (sumState products).1 + ((sumState products).2.1 + (sumState products).2.2)

/-- `calculate_invoice_totals` from `src/backend/server.py`: accumulate the
per-line taxable value and CGST/SGST amounts at full precision, then round
the returned fields to 2 decimals (`final_amount` to an integer). -/
def calculate_invoice_totals (products : List ProductItem) : InvoiceTotals :=
  let s := sumState products
  let total_tax := s.2.1 + s.2.2
  let gross := s.1 + total_tax
  let final_amount := roundHalfEven gross
  let round_off := (final_amount : ℚ) - gross
  { total_taxable_value := round2 s.1
    total_cgst := round2 s.2.1
    total_sgst := round2 s.2.2
    total_tax := round2 total_tax
    round_off := round2 round_off
    final_amount := final_amount }

/-! ## Amount-to-words converter (`number_to_words`) -/

/-- An input to `number_to_words`.  The Python function accepts anything
and first runs `int(num)`: an `int` passes through, a `float` is truncated
toward zero, and a value that cannot be coerced (modelled by `invalid`)
raises, which the function's catch-all handler turns into the fallback
string. -/
inductive PyNum where
  | int : ℤ → PyNum
  | dec : ℚ → PyNum
  | invalid : PyNum
deriving DecidableEq, Repr

/-- Python's `int(...)` coercion on the modelled inputs (truncation toward
zero for decimal values). -/
def pyToInt : PyNum → Option ℤ
  | .int n => some n
  | .dec q => some (q.num.tdiv q.den)
  | .invalid => none

/-- Python list indexing `l[i]`: nonnegative indices from the front,
negative indices wrap from the back, out-of-range raises (`none`). -/
def pyIndex (l : List String) (i : ℤ) : Option String :=
  if 0 ≤ i then l[i.toNat]?
  else if 0 ≤ i + l.length then l[(i + l.length).toNat]?
  else none

/-- Python's `str.strip()`: drop leading and trailing whitespace. -/
def trimStr (s : String) : String :=
  ⟨((s.data.dropWhile Char.isWhitespace).reverse.dropWhile Char.isWhitespace).reverse⟩

def onesWords : List String :=
  ["", "One", "Two", "Three", "Four", "Five", "Six", "Seven", "Eight", "Nine"]

def teensWords : List String :=
  ["Ten", "Eleven", "Twelve", "Thirteen", "Fourteen", "Fifteen",
   "Sixteen", "Seventeen", "Eighteen", "Nineteen"]

def tensWords : List String :=
  ["", "", "Twenty", "Thirty", "Forty", "Fifty", "Sixty", "Seventy", "Eighty", "Ninety"]

/-- `convert_hundreds` from `number_to_words`: the words for `0 ≤ n ≤ 999`
(empty string for 0); `none` models an uncaught `IndexError` from a list
access out of range.  The three stages mirror the three `if` blocks of the
source, threading `(result, n)`. -/
def convert_hundreds (n : ℤ) : Option String :=
  (if n ≥ 100 then
      (pyIndex onesWords (n.fdiv 100)).map (fun w => (w ++ " Hundred ", n.fmod 100))
    else some ("", n)).bind fun st1 =>
  (if st1.2 ≥ 20 then
      (pyIndex tensWords (st1.2.fdiv 10)).map (fun w => (st1.1 ++ w ++ " ", st1.2.fmod 10))
    else if st1.2 ≥ 10 then
      (pyIndex teensWords (st1.2 - 10)).map (fun w => (st1.1 ++ w ++ " ", 0))
    else some st1).bind fun st2 =>
  (if st2.2 > 0 then
      (pyIndex onesWords st2.2).map (fun w => st2.1 ++ w ++ " ")
    else some st2.1).map trimStr

/-- The body of `number_to_words` inside its `try:` block; `none` models
an exception reaching the catch-all handler. -/
def numToWordsAux (x : PyNum) : Option String :=
  (pyToInt x).bind fun num =>
  if num = 0 then some "Zero Rupees Only"
  else if num < 1000 then
    (convert_hundreds num).map (fun h => h ++ " Rupees Only")
  else if num < 100000 then
    (convert_hundreds (num.fdiv 1000)).bind fun th =>
    (if num.fmod 1000 > 0 then
        (convert_hundreds (num.fmod 1000)).map
          (fun h => th ++ " Thousand " ++ h ++ " ")
      else some (th ++ " Thousand ")).map
      (fun r => trimStr r ++ " Rupees Only")
  else
    (convert_hundreds (num.fdiv 100000)).bind fun lk =>
    (if num.fmod 100000 ≥ 1000 then
        (convert_hundreds ((num.fmod 100000).fdiv 1000)).map
          (fun th => (lk ++ " Lakh " ++ th ++ " Thousand ", (num.fmod 100000).fmod 1000))
      else some (lk ++ " Lakh ", num.fmod 100000)).bind fun st =>
    (if st.2 > 0 then
        (convert_hundreds st.2).map (fun h => st.1 ++ h ++ " ")
      else some st.1).map
      (fun r => trimStr r ++ " Rupees Only")

/-- `number_to_words` from `src/backend/server.py`: render the coerced
integer in words on the Indian scale, with the catch-all `except:` mapping
any failure to the fallback string. -/
def number_to_words (x : PyNum) : String :=
  match numToWordsAux x with
  | some s => s
  | none => "Amount calculation error"

/-! ## Invoice numbering (`create_invoice`) -/

/-- Python's `str.replace("INV", "")`: remove the non-overlapping
occurrences of "INV", scanning left to right. -/
def stripINV : List Char → List Char
  | [] => []
  | [c] => [c]
  | [c, d] => [c, d]
  | c :: d :: e :: rest =>
    if c = 'I' ∧ d = 'N' ∧ e = 'V' then stripINV rest
    else c :: stripINV (d :: e :: rest)

/-- Digits of `n`, most significant first, with explicit fuel (any
`fuel ≥ n` is enough). -/
def natToChars : ℕ → ℕ → List Char
  | 0, _ => []
  | fuel + 1, n =>
    if n = 0 then [] else natToChars fuel (n / 10) ++ [Nat.digitChar (n % 10)]

/-- Decimal rendering of a nonnegative integer, modelling the f-string
formatting `f"INV{next_num}"` of `create_invoice`. -/
def natToString (n : ℕ) : String :=
  if n = 0 then "0" else ⟨natToChars n n⟩

/-- Python's `int(s)` on the strings arising in `create_invoice`:
defined exactly on nonempty all-digit strings. -/
def parseIntStr (s : String) : Option ℕ :=
  if s.data ≠ [] ∧ s.data.all Char.isDigit then
    some (s.data.foldl (fun a c => 10 * a + (c.toNat - 48)) 0)
  else none

/-- The invoice-number allocation step of `create_invoice`: given the
highest stored `invoice_number` (or `none` when the store is empty),
strip the fixed prefix "INV", parse the remainder as an integer, add one,
and format the result; `none` models a parse failure raising. -/
def next_invoice_number (last : Option String) : Option String :=
  match last with
  | none => some ("INV" ++ natToString 1)
  | some s =>
    (parseIntStr ⟨stripINV s.data⟩).map (fun k => "INV" ++ natToString (k + 1))

/-! ## Proofs -/

/-- `Rat.floor` agrees with the `FloorRing` floor on `ℚ`. -/
lemma ratFloor_eq (q : ℚ) : q.floor = ⌊q⌋ :=
  (Rat.floor_def' q).trans Rat.floor_def.symm

-- Scenario from §8 of the spec: single item qty 2, rate 1000, discount 5%,
-- GST 18% → taxable 1900, cgst = sgst = 171, gross 2242, final 2242.
example :
    calculate_invoice_totals [⟨2, 1000, 5, 18⟩] =
      { total_taxable_value := 1900, total_cgst := 171, total_sgst := 171,
        total_tax := 342, round_off := 0, final_amount := 2242 } := by
  simp only [calculate_invoice_totals, sumState, accumulate, List.foldl,
    round2, roundHalfEven, ratFloor_eq, InvoiceTotals.mk.injEq]
  norm_num

/-- Rounding an integer changes nothing. -/
lemma roundHalfEven_intCast (m : ℤ) : roundHalfEven (m : ℚ) = m := by
  unfold roundHalfEven
  rw [ratFloor_eq, Int.floor_intCast]
  norm_num

/-- The rounded value is within 1/2 of the argument. -/
lemma abs_roundHalfEven_sub_le (q : ℚ) : |(roundHalfEven q : ℚ) - q| ≤ 1/2 := by
  have h0 : (⌊q⌋ : ℚ) ≤ q := Int.floor_le q
  have h1 : q < ⌊q⌋ + 1 := Int.lt_floor_add_one q
  unfold roundHalfEven
  rw [ratFloor_eq]
  split_ifs with hlt hgt hpar <;>
    · rw [abs_le]; constructor <;> push_cast <;> linarith

/-- Subtracting from an even integer commutes with round-half-to-even. -/
lemma roundHalfEven_even_sub (k : ℤ) (hk : k % 2 = 0) (x : ℚ) :
    roundHalfEven ((k : ℚ) - x) = k - roundHalfEven x := by
  rcases eq_or_ne x (⌊x⌋ : ℚ) with hx | hx
  · rw [hx]
    have h1 : (k : ℚ) - (⌊x⌋ : ℚ) = ((k - ⌊x⌋ : ℤ) : ℚ) := by push_cast; ring
    rw [h1, roundHalfEven_intCast, roundHalfEven_intCast (⌊x⌋)]
  · have hfl : (⌊x⌋ : ℚ) ≤ x := Int.floor_le x
    have hfl2 : x < ⌊x⌋ + 1 := Int.lt_floor_add_one x
    have hr0 : 0 < x - ⌊x⌋ :=
      lt_of_le_of_ne (by linarith) (Ne.symm (sub_ne_zero.mpr hx))
    have hr1 : x - ⌊x⌋ < 1 := by linarith
    have hfloor : ⌊(k : ℚ) - x⌋ = k - ⌊x⌋ - 1 := by
      apply Int.floor_eq_iff.mpr
      constructor <;> push_cast <;> linarith
    unfold roundHalfEven
    rw [ratFloor_eq, ratFloor_eq, hfloor]
    have hc : (k : ℚ) - x - ((k - ⌊x⌋ - 1 : ℤ) : ℚ) = 1 - (x - ⌊x⌋) := by
      push_cast; ring
    rw [hc]
    rcases lt_trichotomy (x - (⌊x⌋ : ℚ)) (1/2 : ℚ) with h | h | h <;>
      · split_ifs <;> first | omega | linarith

/-- `round2` commutes with subtraction from an integer (an integer scaled
by 100 is even, so the half-even tie direction is preserved). -/
lemma round2_intCast_sub (m : ℤ) (g : ℚ) :
    round2 ((m : ℚ) - g) = (m : ℚ) - round2 g := by
  unfold round2
  have h1 : ((m : ℚ) - g) * 100 = ((100 * m : ℤ) : ℚ) - g * 100 := by
    push_cast; ring
  rw [h1, roundHalfEven_even_sub (100 * m) (by omega) (g * 100)]
  push_cast; ring

/-- `round2` moves a value by at most 1/200. -/
lemma abs_round2_sub_le (q : ℚ) : |round2 q - q| ≤ 1/200 := by
  have h := abs_roundHalfEven_sub_le (q * 100)
  unfold round2
  have h2 : (roundHalfEven (q * 100) : ℚ) / 100 - q =
      ((roundHalfEven (q * 100) : ℚ) - q * 100) / 100 := by ring
  rw [h2, abs_div, abs_of_pos (by norm_num : (0:ℚ) < 100)]
  rw [div_le_iff₀ (by norm_num : (0:ℚ) < 100)]
  linarith

/-- The loop preserves equality of the CGST and SGST accumulators, because
the per-item `cgst_amount` and `sgst_amount` are the same expression. -/
lemma foldl_cgst_eq_sgst (ps : List ProductItem) :
    ∀ acc : ℚ × ℚ × ℚ, acc.2.1 = acc.2.2 →
      (List.foldl accumulate acc ps).2.1 = (List.foldl accumulate acc ps).2.2 := by
  induction ps with
  | nil => intro acc h; simpa using h
  | cons p t ih =>
      intro acc h
      simp only [List.foldl_cons]
      apply ih
      simp only [accumulate]
      rw [h]

lemma sumState_cgst_eq_sgst (ps : List ProductItem) :
    (sumState ps).2.1 = (sumState ps).2.2 :=
  foldl_cgst_eq_sgst ps (0, 0, 0) rfl

lemma totals_ttv (ps : List ProductItem) :
    (calculate_invoice_totals ps).total_taxable_value = round2 (sumState ps).1 := rfl

lemma totals_cgst (ps : List ProductItem) :
    (calculate_invoice_totals ps).total_cgst = round2 (sumState ps).2.1 := rfl

lemma totals_sgst (ps : List ProductItem) :
    (calculate_invoice_totals ps).total_sgst = round2 (sumState ps).2.2 := rfl

lemma totals_tax (ps : List ProductItem) :
    (calculate_invoice_totals ps).total_tax =
      round2 ((sumState ps).2.1 + (sumState ps).2.2) := rfl

lemma totals_final (ps : List ProductItem) :
    (calculate_invoice_totals ps).final_amount = roundHalfEven (gross_total ps) := rfl

lemma totals_roundoff (ps : List ProductItem) :
    (calculate_invoice_totals ps).round_off =
      round2 ((roundHalfEven (gross_total ps) : ℚ) - gross_total ps) := rfl

/-- Rounding each of two addends separately agrees with rounding their sum
to within one cent. -/
lemma abs_round2_add_sub (a b : ℚ) :
    |round2 (a + b) - (round2 a + round2 b)| ≤ 1/100 := by
  have h1 := abs_roundHalfEven_sub_le ((a + b) * 100)
  have h2 := abs_roundHalfEven_sub_le (a * 100)
  have h3 := abs_roundHalfEven_sub_le (b * 100)
  have hz : round2 (a + b) - (round2 a + round2 b) =
      ((roundHalfEven ((a + b) * 100) - roundHalfEven (a * 100) -
        roundHalfEven (b * 100) : ℤ) : ℚ) / 100 := by
    unfold round2; push_cast; ring
  have hzq : |((roundHalfEven ((a + b) * 100) - roundHalfEven (a * 100) -
      roundHalfEven (b * 100) : ℤ) : ℚ)| ≤ 3/2 := by
    rw [abs_le] at h1 h2 h3 ⊢
    constructor <;> push_cast <;> [nlinarith; nlinarith]
  have hz1 : |(roundHalfEven ((a + b) * 100) - roundHalfEven (a * 100) -
      roundHalfEven (b * 100) : ℤ)| ≤ 1 := by
    have h4 : ((|roundHalfEven ((a + b) * 100) - roundHalfEven (a * 100) -
        roundHalfEven (b * 100)| : ℤ) : ℚ) ≤ 3/2 := by
      rw [Int.cast_abs]; exact hzq
    by_contra hcon
    push_neg at hcon
    have h5 : (2 : ℚ) ≤ ((|roundHalfEven ((a + b) * 100) - roundHalfEven (a * 100) -
        roundHalfEven (b * 100)| : ℤ) : ℚ) := by exact_mod_cast hcon
    linarith
  rw [hz, abs_div, abs_of_pos (by norm_num : (0:ℚ) < 100),
    div_le_iff₀ (by norm_num : (0:ℚ) < 100), ← Int.cast_abs]
  calc ((|_| : ℤ) : ℚ) ≤ ((1 : ℤ) : ℚ) := by exact_mod_cast hz1
    _ ≤ 1/100 * 100 := by norm_num

lemma totals_cex2 :
    calculate_invoice_totals [⟨1, 1.004, 0, 100⟩] =
      { total_taxable_value := 1, total_cgst := 1/2, total_sgst := 1/2,
        total_tax := 1, round_off := -1/100, final_amount := 2 } := by
  simp only [calculate_invoice_totals, sumState, accumulate, List.foldl,
    round2, roundHalfEven, ratFloor_eq, InvoiceTotals.mk.injEq]
  norm_num

lemma totals_cex3 :
    calculate_invoice_totals [⟨1, 2.6, 0, 1⟩] =
      { total_taxable_value := 13/5, total_cgst := 1/100, total_sgst := 1/100,
        total_tax := 3/100, round_off := 37/100, final_amount := 3 } := by
  simp only [calculate_invoice_totals, sumState, accumulate, List.foldl,
    round2, roundHalfEven, ratFloor_eq, InvoiceTotals.mk.injEq]
  norm_num

/-- Claim C1: for every list of line items, the totals returned by
`calculate_invoice_totals` satisfy `total_cgst == total_sgst` — here proved
as exact equality in the exact-arithmetic model (hence within any
tolerance), for any item count and heterogeneous `gst_rate`s. -/
theorem cgst_eq_sgst (ps : List ProductItem) :
    (calculate_invoice_totals ps).total_cgst =
      (calculate_invoice_totals ps).total_sgst := by
  rw [totals_cgst, totals_sgst, sumState_cgst_eq_sgst]

/-- Claim C2, counterexample: for the single line item
`quantity 1, unit_rate 1.004, discount 0, gst_rate 100`, the returned
`round_off` (−0.01, computed from the unrounded gross total) differs from
`final_amount − (total_taxable_value + total_tax)` computed from the
returned 2-decimal-rounded fields (2 − (1.00 + 1.00) = 0). -/
theorem round_off_claim_counterexample :
    ¬ ((calculate_invoice_totals [⟨1, 1.004, 0, 100⟩]).round_off =
        ((calculate_invoice_totals [⟨1, 1.004, 0, 100⟩]).final_amount : ℚ) -
        ((calculate_invoice_totals [⟨1, 1.004, 0, 100⟩]).total_taxable_value +
         (calculate_invoice_totals [⟨1, 1.004, 0, 100⟩]).total_tax)) := by
  rw [totals_cex2]
  norm_num

/-- Claim C2, amended: the returned `round_off` equals
`final_amount − round2(gross_total)` where `gross_total` is the unrounded
sum of taxable value and tax (not the sum of the already-rounded returned
fields), and `final_amount` is a nearest integer to the unrounded
`gross_total` (within 1/2). -/
theorem round_off_amended :
    (∀ ps : List ProductItem,
      (calculate_invoice_totals ps).round_off =
        ((calculate_invoice_totals ps).final_amount : ℚ) - round2 (gross_total ps) ∧
      |((calculate_invoice_totals ps).final_amount : ℚ) - gross_total ps| ≤ 1/2) ∧
    (calculate_invoice_totals [⟨1, 1.004, 0, 100⟩]).round_off < 0 := by
  refine ⟨fun ps => ⟨?_, ?_⟩, ?_⟩
  · rw [totals_roundoff, totals_final, round2_intCast_sub]
  · rw [totals_final]
    exact abs_roundHalfEven_sub_le _
  · rw [totals_cex2]
    norm_num

/-- Claim C3, counterexample: for the single line item
`quantity 1, unit_rate 2.6, discount 0, gst_rate 1`, the returned
`total_tax` is 0.03 (rounding of the unrounded 0.026) while the returned
`total_cgst + total_sgst` is 0.01 + 0.01 = 0.02: post-rounding equality
fails. -/
theorem total_tax_claim_counterexample :
    ¬ ((calculate_invoice_totals [⟨1, 2.6, 0, 1⟩]).total_tax =
        (calculate_invoice_totals [⟨1, 2.6, 0, 1⟩]).total_cgst +
        (calculate_invoice_totals [⟨1, 2.6, 0, 1⟩]).total_sgst) := by
  rw [totals_cex3]
  norm_num

/-- Claim C3, amended: the returned `total_tax` is the 2-decimal rounding
of the unrounded sum of the CGST and SGST accumulators; it agrees with the
sum of the returned (rounded) `total_cgst` and `total_sgst` only to within
0.01. -/
theorem total_tax_amended (ps : List ProductItem) :
    (calculate_invoice_totals ps).total_tax =
      round2 ((sumState ps).2.1 + (sumState ps).2.2) ∧
    |(calculate_invoice_totals ps).total_tax -
      ((calculate_invoice_totals ps).total_cgst +
       (calculate_invoice_totals ps).total_sgst)| ≤ 1/100 := by
  refine ⟨totals_tax ps, ?_⟩
  rw [totals_tax, totals_cgst, totals_sgst]
  exact abs_round2_add_sub _ _

/-- Claim C4: `final_amount` is the round-half-to-even rounding of the
unrounded `gross_total`; in particular the halfway case
`gross_total = 2242.5` (single item `quantity 1, unit_rate 2242.5,`
`gst_rate 0`) rounds to 2242, not 2243. -/
theorem final_amount_rounds_half_to_even :
    (∀ ps : List ProductItem,
      (calculate_invoice_totals ps).final_amount = roundHalfEven (gross_total ps)) ∧
    gross_total [⟨1, 2242.5, 0, 0⟩] = 2242.5 ∧
    (calculate_invoice_totals [⟨1, 2242.5, 0, 0⟩]).final_amount = 2242 := by
  refine ⟨totals_final, ?_, ?_⟩
  · simp only [gross_total, sumState, accumulate, List.foldl]
    norm_num
  · simp only [calculate_invoice_totals, sumState, accumulate, List.foldl,
      roundHalfEven, ratFloor_eq]
    norm_num

/-- Claim C5: on the empty line-item sequence `calculate_invoice_totals`
returns all-zero totals and `final_amount = 0` (and, being a total Lean
function over arbitrary rational inputs, the model raises no error on any
numeric input). -/
theorem totals_empty :
    calculate_invoice_totals [] =
      { total_taxable_value := 0, total_cgst := 0, total_sgst := 0,
        total_tax := 0, round_off := 0, final_amount := 0 } := by
  simp only [calculate_invoice_totals, sumState, accumulate, List.foldl,
    round2, roundHalfEven, ratFloor_eq, InvoiceTotals.mk.injEq]
  norm_num
example : number_to_words (.int 2242) =
    "Two Thousand Two Hundred Forty Two Rupees Only" := by decide

example : number_to_words (.int 17) = "Seventeen Rupees Only" := by decide

example : number_to_words (.dec ⟨7, 2, by decide, by decide⟩) = "Three Rupees Only" := by
  decide

/-- Claim C6: `number_to_words` renders 0 as exactly "Zero Rupees Only",
100000 as exactly "One Lakh Rupees Only" (zero-valued scale segments are
omitted), and 123456 as exactly
"One Lakh Twenty Three Thousand Four Hundred Fifty Six Rupees Only". -/
theorem number_to_words_examples :
    number_to_words (.int 0) = "Zero Rupees Only" ∧
    number_to_words (.int 100000) = "One Lakh Rupees Only" ∧
    number_to_words (.int 123456) =
      "One Lakh Twenty Three Thousand Four Hundred Fifty Six Rupees Only" :=
  ⟨by decide, by decide, by decide⟩

/-- Claim C7: `number_to_words` never propagates an error: it returns a
string on every input (it is a total function into `String`), and when the
input cannot be coerced to an integer it returns the fixed sentinel
fallback string instead of raising. -/
theorem number_to_words_sentinel (x : PyNum) (h : pyToInt x = none) :
    number_to_words x = "Amount calculation error" := by
  unfold number_to_words numToWordsAux
  rw [h, Option.none_bind]

/-- Witness for C7 at the uncoercible input. -/
theorem number_to_words_sentinel_witness :
    number_to_words PyNum.invalid = "Amount calculation error" :=
  number_to_words_sentinel PyNum.invalid rfl

/-- `convert_hundreds` hits an out-of-range `ones[n // 100]` access for
every `n ≥ 1000` (the list has 10 entries), so it fails. -/
lemma convert_hundreds_ge_1000 (m : ℤ) (h : 1000 ≤ m) : convert_hundreds m = none := by
  have h100 : m ≥ 100 := by omega
  have h0 : 0 ≤ m.fdiv 100 := by
    rw [Int.fdiv_eq_ediv _ (by norm_num)]; omega
  have hidx : 10 ≤ m.fdiv 100 := by
    rw [Int.fdiv_eq_ediv _ (by norm_num)]; omega
  have hnone : pyIndex onesWords (m.fdiv 100) = none := by
    unfold pyIndex
    rw [if_pos h0]
    apply List.getElem?_eq_none
    have hlen : onesWords.length = 10 := rfl
    rw [hlen]
    omega
  unfold convert_hundreds
  rw [if_pos h100, hnone]
  rfl

/-- Claim C9: for every integer input of at least 100,000,000 the lakhs
component is at least 1000, `convert_hundreds` raises an out-of-range
index, the catch-all handler swallows it, and `number_to_words` returns
the fallback string "Amount calculation error". -/
theorem number_to_words_overflow (n : ℤ) (h : 100000000 ≤ n) :
    number_to_words (.int n) = "Amount calculation error" := by
  have hl : 1000 ≤ n.fdiv 100000 := by
    rw [Int.fdiv_eq_ediv _ (by norm_num)]; omega
  unfold number_to_words numToWordsAux pyToInt
  rw [Option.some_bind, if_neg (by omega : ¬ n = 0),
    if_neg (by omega : ¬ n < 1000), if_neg (by omega : ¬ n < 100000),
    convert_hundreds_ge_1000 _ hl, Option.none_bind]

/-- Witness for C9 at the smallest overflowing amount. -/
theorem number_to_words_overflow_witness :
    number_to_words (.int 100000000) = "Amount calculation error" :=
  number_to_words_overflow 100000000 (by decide)

/-- Every guard of `convert_hundreds` fails on a negative value, so it
returns the empty string (no error). -/
lemma convert_hundreds_neg (m : ℤ) (h : m < 0) : convert_hundreds m = some "" := by
  unfold convert_hundreds
  rw [if_neg (by omega : ¬ m ≥ 100), Option.some_bind,
    if_neg (by omega : ¬ m ≥ 20), if_neg (by omega : ¬ m ≥ 10),
    Option.some_bind, if_neg (by omega : ¬ m > 0)]
  rfl

/-- Claim C10: every input coercing to a negative integer yields the
degenerate string " Rupees Only" (leading space, no number words): the
hundreds converter returns the empty string on negatives and no error or
fallback is produced. -/
theorem number_to_words_negative (x : PyNum) (n : ℤ)
    (hx : pyToInt x = some n) (hn : n < 0) :
    number_to_words x = " Rupees Only" := by
  unfold number_to_words numToWordsAux
  rw [hx, Option.some_bind, if_neg (by omega : ¬ n = 0),
    if_pos (by omega : n < 1000), convert_hundreds_neg n hn]
  rfl

/-- Witness for C10 at the input −1. -/
theorem number_to_words_negative_witness :
    number_to_words (.int (-1)) = " Rupees Only" :=
  number_to_words_negative (.int (-1)) (-1) rfl (by decide)
lemma digitChar_isDigit {d : ℕ} (h : d < 10) : (Nat.digitChar d).isDigit = true := by
  interval_cases d <;> decide

lemma digitChar_toNat {d : ℕ} (h : d < 10) : (Nat.digitChar d).toNat - 48 = d := by
  interval_cases d <;> decide

lemma natToChars_isDigit :
    ∀ (fuel n : ℕ), ∀ c ∈ natToChars fuel n, c.isDigit = true := by
  intro fuel
  induction fuel with
  | zero => intro n c hc; simp [natToChars] at hc
  | succ f ih =>
    intro n c hc
    rw [natToChars] at hc
    split_ifs at hc with h
    · simp at hc
    · rcases List.mem_append.mp hc with h1 | h1
      · exact ih _ c h1
      · rw [List.mem_singleton.mp h1]
        exact digitChar_isDigit (Nat.mod_lt n (by norm_num))

lemma natToChars_ne_nil (fuel n : ℕ) (hn : n ≠ 0) (hf : n ≤ fuel) :
    natToChars fuel n ≠ [] := by
  cases fuel with
  | zero => omega
  | succ f =>
    rw [natToChars, if_neg hn]
    simp

/-- Parsing (the fold inside `int()`) is a left inverse of rendering. -/
lemma foldl_natToChars (fuel : ℕ) :
    ∀ n : ℕ, n ≤ fuel →
      (natToChars fuel n).foldl (fun a c => 10 * a + (c.toNat - 48)) 0 = n := by
  induction fuel with
  | zero =>
    intro n hn
    interval_cases n
    rfl
  | succ f ih =>
    intro n hn
    rw [natToChars]
    split_ifs with h
    · simp [h]
    · rw [List.foldl_append, ih (n / 10) (by omega)]
      simp only [List.foldl_cons, List.foldl_nil]
      rw [digitChar_toNat (Nat.mod_lt _ (by norm_num))]
      omega

lemma natToString_all_digits (n : ℕ) :
    ∀ c ∈ (natToString n).data, c.isDigit = true := by
  unfold natToString
  split_ifs with h
  · intro c hc
    rw [show ("0" : String).data = ['0'] from rfl] at hc
    rw [List.mem_singleton.mp hc]
    decide
  · exact natToChars_isDigit n n

lemma parse_natToString (n : ℕ) : parseIntStr (natToString n) = some n := by
  rcases eq_or_ne n 0 with h | h
  · subst h
    decide
  · have hdata : (natToString n).data = natToChars n n := by
      unfold natToString
      rw [if_neg h]
    unfold parseIntStr
    rw [hdata, if_pos ⟨natToChars_ne_nil n n h le_rfl,
      List.all_eq_true.mpr (natToChars_isDigit n n)⟩,
      foldl_natToChars n n le_rfl]

/-- Removing "INV" leaves an all-digit suffix unchanged. -/
lemma stripINV_digits :
    ∀ l : List Char, (∀ c ∈ l, c.isDigit = true) → stripINV l = l := by
  intro l
  induction l with
  | nil => intro h; rfl
  | cons c t ih =>
    intro h
    cases t with
    | nil => rfl
    | cons d t2 =>
      cases t2 with
      | nil => rfl
      | cons e t3 =>
        have hc : c ≠ 'I' := by
          intro hC
          have hd := h c (by simp)
          rw [hC] at hd
          exact absurd hd (by decide)
        show (if c = 'I' ∧ d = 'N' ∧ e = 'V' then stripINV t3
              else c :: stripINV (d :: e :: t3)) = c :: d :: e :: t3
        rw [if_neg (fun hand => hc hand.1)]
        congr 1
        exact ih (fun x hx => h x (List.mem_cons_of_mem _ hx))

/-- The leading "INV" is removed. -/
lemma stripINV_INV_cons (l : List Char) :
    stripINV ('I' :: 'N' :: 'V' :: l) = stripINV l := by
  show (if 'I' = 'I' ∧ 'N' = 'N' ∧ 'V' = 'V' then stripINV l
        else 'I' :: stripINV ('N' :: 'V' :: l)) = stripINV l
  rw [if_pos (by decide)]

/-- Claim C8: invoice numbers form a monotonically increasing integer
sequence: with an empty store the first invoice gets "INV1", and when the
highest stored number is "INV" followed by the decimal rendering of `n`,
the next invoice gets "INV" followed by `n + 1`. -/
theorem invoice_numbering :
    next_invoice_number none = some "INV1" ∧
    ∀ n : ℕ, next_invoice_number (some ("INV" ++ natToString n)) =
      some ("INV" ++ natToString (n + 1)) := by
  constructor
  · decide
  · intro n
    rw [show next_invoice_number (some ("INV" ++ natToString n)) =
        (parseIntStr ⟨stripINV ("INV" ++ natToString n).data⟩).map
          (fun k => "INV" ++ natToString (k + 1)) from rfl]
    rw [show ("INV" ++ natToString n).data = 'I' :: 'N' :: 'V' :: (natToString n).data from rfl,
      stripINV_INV_cons, stripINV_digits _ (natToString_all_digits n)]
    rw [show (⟨(natToString n).data⟩ : String) = natToString n from rfl,
      parse_natToString]
    rfl

end GSTBilling
